import Mathlib

/-!
Verification of `src/core/scriptLoader.ts` (vscode-loader).

The file shallowly embeds the script-loader core:

* `OnlyOnceScriptLoader` — the deduplicating decorator: its callback map
  becomes an association list from script source to the ordered list of
  registered callback pairs, and `load` / `triggerCallback` /
  `triggerErrorback` become pure state-transforming functions.
* `WorkerScriptLoader.load` — the `try { importScripts; callback() }
  catch { errorback(e) }` body becomes a function from the outcomes of
  the import and of the success callback (each may throw, i.e. return
  `Except.error`) to the ordered list of callback invocations.
* `NodeScriptLoader` — the BOM-stripping source wrapper, the
  native-module (`node|`) branch, the cached-data after-math
  (rejected / produced flags), `_getCachedDataPath` and `_runSoon`.

JavaScript strings are modelled as `List Char`; JavaScript numbers that
feed `Math.ceil` are modelled as `ℚ`.
-/

namespace ScriptLoader

/-- One entry of the `IScriptCallbacks` interface: a success callback and
an error callback, identified opaquely by natural numbers. -/
structure ScriptCallbacks where
  callback : Nat
  errorback : Nat
  deriving DecidableEq, Repr

/-- The `callbackMap` field of `OnlyOnceScriptLoader`: a JavaScript object
keyed by script source, holding the ordered list of registered callback
pairs.  Modelled as an association list with unique keys. -/
abbrev CallbackMap := List (List Char × List ScriptCallbacks)

/-- `hasOwnProperty` / property read on the callback map. -/
def cmLookup : CallbackMap → List Char → Option (List ScriptCallbacks)
  | [], _ => none
  | (k', v) :: rest, k => if k' = k then some v else cmLookup rest k

/-- `this.callbackMap[scriptSrc].push(scriptCallbacks)` — append to the
list stored under an existing key (keys are unique, as in a JS object). -/
def cmPush : CallbackMap → List Char → ScriptCallbacks → CallbackMap
  | [], _, _ => []
  | (k', v) :: rest, k, p =>
    if k' = k then (k', v ++ [p]) :: rest else (k', v) :: cmPush rest k p

/-- `this.callbackMap[scriptSrc] = [scriptCallbacks]` on a fresh key. -/
def cmInsert (m : CallbackMap) (k : List Char) (v : List ScriptCallbacks) : CallbackMap :=
  m ++ [(k, v)]

/-- `delete this.callbackMap[scriptSrc]`. -/
def cmDelete : CallbackMap → List Char → CallbackMap
  | [], _ => []
  | (k', v) :: rest, k =>
    if k' = k then cmDelete rest k else (k', v) :: cmDelete rest k

/-- Result of one `OnlyOnceScriptLoader.load` call: the updated callback
map and whether the call delegated to the wrapped loader
(`actualScriptLoader.load`). -/
structure LoadResult where
  map : CallbackMap
  startedUnderlying : Bool
  deriving DecidableEq

/-- `OnlyOnceScriptLoader.load` (scriptLoader.ts lines 39-50): if the map
already has an entry for `scriptSrc`, push the callback pair and return
without starting an underlying load; otherwise create a singleton entry
and delegate to the wrapped loader. -/
def load (m : CallbackMap) (scriptSrc : List Char) (p : ScriptCallbacks) : LoadResult :=
  match cmLookup m scriptSrc with
  | some _ => { map := cmPush m scriptSrc p, startedUnderlying := false }
  | none => { map := cmInsert m scriptSrc [p], startedUnderlying := true }

/-- `OnlyOnceScriptLoader.triggerCallback` (lines 52-59): read the list of
registered pairs, delete the entry, then invoke each success callback in
registration order.  The result is the callback map as it stands while the
callbacks run (the entry already deleted) together with the ordered list
of pairs whose success callbacks are invoked. -/
def triggerCallback (m : CallbackMap) (scriptSrc : List Char) :
    CallbackMap × List ScriptCallbacks :=
  (cmDelete m scriptSrc, (cmLookup m scriptSrc).getD [])

/-- `OnlyOnceScriptLoader.triggerErrorback` (lines 61-68): identical state
change; each pair's error callback is invoked in registration order with
the single error value. -/
def triggerErrorback (m : CallbackMap) (scriptSrc : List Char) :
    CallbackMap × List ScriptCallbacks :=
  (cmDelete m scriptSrc, (cmLookup m scriptSrc).getD [])

/-- Issue a sequence of `load` calls for the same script source (one per
callback pair, in order), counting how many delegated to the underlying
loader. -/
def loadMany (m : CallbackMap) (scriptSrc : List Char) :
    List ScriptCallbacks → CallbackMap × Nat
  | [] => (m, 0)
  | p :: rest =>
    let r := load m scriptSrc p
    let (m', n) := loadMany r.map scriptSrc rest
    (m', (if r.startedUnderlying then 1 else 0) + n)

/-- A single callback invocation observed during a strategy `load` call,
in the order it happened. -/
inductive CbEvent (E : Type) where
  | success
  | failure (e : E)
  deriving DecidableEq, Repr

/-- `WorkerScriptLoader.load` (lines 112-119):
`try { importScripts(scriptSrc); callback(); } catch (e) { errorback(e); }`.
The embedding is parameterised by the outcome of the synchronous
`importScripts` call and by the outcome of the caller's success callback,
each of which either returns (`Except.ok`) or throws (`Except.error`).
The result is the ordered list of callback invocations performed before
`load` returns control; `CbEvent.success` is recorded when `callback()`
is entered.  Because the `try` block spans both `importScripts` and
`callback()`, an exception thrown by the success callback is also caught
and routed to `errorback`. -/
def workerLoad {E : Type} (importRes : Except E Unit) (callbackRes : Except E Unit) :
    List (CbEvent E) :=
  match importRes with
  | .error e => [CbEvent.failure e]
  | .ok _ =>
    match callbackRes with
    | .ok _ => [CbEvent.success]
    | .error e => [CbEvent.success, CbEvent.failure e]

/-- An observable action of the `node|` (native module) branch of
`NodeScriptLoader.load`, in order. -/
inductive NativeEvent (E V : Type) where
  | defineAnonymousModule (dependencies : List (List Char)) (value : V)
  | success
  | failure (e : E)
  deriving DecidableEq, Repr

/-- The native-module branch of `NodeScriptLoader.load` (lines 199-213):
split the locator on `'|'`, `nodeRequire` the second piece; on a throw,
invoke the error callback with the thrown error and return; otherwise
enqueue an anonymous module definition with no dependencies whose factory
returns the imported value, then invoke the success callback.
`nodeRequire` is a parameter: a function from module name to either the
imported value or a thrown error. -/
def nodeLoadNative {E V : Type} (nodeRequire : List Char → Except E V)
    (scriptSrc : List Char) : List (NativeEvent E V) :=
  let pieces := scriptSrc.splitOn '|'
  match nodeRequire (pieces.getD 1 []) with
  | .error err => [NativeEvent.failure err]
  | .ok v => [NativeEvent.defineAnonymousModule [] v, NativeEvent.success]

/-- The wrapper text put in front of the module source (line 236). -/
def wrapPre : List Char :=
  "(function (require, define, __filename, __dirname) \x7b ".toList

/-- The wrapper text appended after the module source (line 237). -/
def wrapSuf : List Char := "\n\x7d);".toList

/-- The byte-order-mark code point checked by `NodeScriptLoader._BOM`. -/
def bomChar : Char := Char.ofNat 0xFEFF

/-- Lines 235-243 of `NodeScriptLoader.load`: wrap the file contents,
stripping the first character when `data.charCodeAt(0) === 0xFEFF`
(on the empty string `charCodeAt(0)` is `NaN`, which is not `0xFEFF`). -/
def wrapScriptSource : List Char → List Char
  | [] => wrapPre ++ wrapSuf
  | c :: rest =>
    if c.toNat = 0xFEFF then wrapPre ++ rest ++ wrapSuf
    else wrapPre ++ (c :: rest) ++ wrapSuf

/-- Whether a source text begins with the BOM code point. -/
def startsWithBom : List Char → Bool
  | [] => false
  | c :: _ => c.toNat == 0xFEFF

/-- An observable action of the cached-data branch of
`NodeScriptLoader.load`, in order. -/
inductive NEvent (E : Type) where
  | evalScript
  | callerSuccess
  | callerFailure (e : E)
  | hookError (errorCode : List Char) (path : List Char)
  | fsUnlink (path : List Char)
  | fsWrite (path : List Char)
  deriving DecidableEq, Repr

/-- The body of the cache-file `readFile` callback in
`NodeScriptLoader.load` (lines 256-300), as the ordered trace of its
observable actions in the single-threaded event model: evaluate the
script, invoke the caller's success callback, then the cached-code
after-math on the compiled script's `cachedDataRejected` /
`cachedDataProduced` flags.  `_runSoon` defers the `unlink` / `writeFile`
closure to a later timer tick, so those actions (and the hook
notification their error handlers make, when the fs operation fails with
`some` error) appear after the success callback in the trace. -/
def nodeCachedAfterLoad {E : Type} (cachedDataRejected cachedDataProduced : Bool)
    (cachedDataPath : List Char) (unlinkErr writeErr : Option E) : List (NEvent E) :=
  [NEvent.evalScript, NEvent.callerSuccess] ++
  (if cachedDataRejected then
    NEvent.hookError "cachedDataRejected".toList cachedDataPath ::
    NEvent.fsUnlink cachedDataPath ::
    (match unlinkErr with
     | some _ => [NEvent.hookError "unlink".toList cachedDataPath]
     | none => [])
  else if cachedDataProduced then
    NEvent.fsWrite cachedDataPath ::
    (match writeErr with
     | some _ => [NEvent.hookError "writeFile".toList cachedDataPath]
     | none => [])
  else [])

/-- Number of cache-file deletions in a trace. -/
def countUnlink {E : Type} : List (NEvent E) → Nat
  | [] => 0
  | NEvent.fsUnlink _ :: rest => countUnlink rest + 1
  | _ :: rest => countUnlink rest

/-- Number of cache-file writes in a trace. -/
def countWrite {E : Type} : List (NEvent E) → Nat
  | [] => 0
  | NEvent.fsWrite _ :: rest => countWrite rest + 1
  | _ :: rest => countWrite rest

/-- `NodeScriptLoader._runSoon` (lines 328-331): the scheduled timeout is
`minTimeout + Math.ceil(Math.random() * minTimeout)`, where
`Math.random()` yields a value in `[0, 1)` and `minTimeout` is the
configured `nodeCachedDataWriteDelay`, an unconstrained JS number
(so, like the random draw, modelled as `ℚ`; the result of `Math.ceil`
is an integer, and the schedule delay is their sum, a number). -/
def runSoonTimeout (minTimeout : ℚ) (rand : ℚ) : ℚ :=
  minTimeout + (⌈rand * minTimeout⌉ : ℤ)

/-- `basename.replace(/\.js$/, '')` (line 324): remove a trailing `.js`
if present. -/
def replaceJsSuffix (s : List Char) : List Char :=
  if ('.' :: 'j' :: 's' :: []).isSuffixOf s then s.take (s.length - 3) else s

/-- `NodeScriptLoader._getCachedDataPath` (lines 322-326).  The injected
node collaborators are parameters: `hashHex` models
`crypto.createHash('md5').update(filename, 'utf8').digest('hex')`,
`basenameOf` models `path.basename`, and `joinPath` models `path.join`. -/
def getCachedDataPath (hashHex basenameOf : List Char → List Char)
    (joinPath : List Char → List Char → List Char)
    (baseDir filename : List Char) : List Char :=
  joinPath baseDir
    (hashHex filename ++ '-' :: replaceJsSuffix (basenameOf filename) ++ ".code".toList)

theorem cmLookup_cmPush (m : CallbackMap) (k : List Char) (p : ScriptCallbacks) :
    cmLookup (cmPush m k p) k = (cmLookup m k).map (fun v => v ++ [p]) := by
  induction m with
  | nil => rfl
  | cons kv rest ih =>
    obtain ⟨k', v⟩ := kv
    by_cases h : k' = k <;> simp [cmPush, cmLookup, h, ih]

theorem cmLookup_cmInsert (m : CallbackMap) (k : List Char) (v : List ScriptCallbacks)
    (h : cmLookup m k = none) : cmLookup (cmInsert m k v) k = some v := by
  induction m with
  | nil => simp [cmInsert, cmLookup]
  | cons kv rest ih =>
    obtain ⟨k', v'⟩ := kv
    by_cases hk : k' = k
    · simp [cmLookup, hk] at h
    · simp [cmLookup, hk, cmInsert] at h ⊢
      exact ih h

theorem cmLookup_cmDelete (m : CallbackMap) (k : List Char) :
    cmLookup (cmDelete m k) k = none := by
  induction m with
  | nil => rfl
  | cons kv rest ih =>
    obtain ⟨k', v⟩ := kv
    by_cases h : k' = k <;> simp [cmDelete, cmLookup, h, ih]

/-- While an entry exists, further `load` calls only append: no underlying
load is started and the registration order is preserved. -/
theorem loadMany_pending (scriptSrc : List Char) (ps : List ScriptCallbacks) :
    ∀ (m : CallbackMap) (v : List ScriptCallbacks), cmLookup m scriptSrc = some v →
      (loadMany m scriptSrc ps).2 = 0 ∧
      cmLookup (loadMany m scriptSrc ps).1 scriptSrc = some (v ++ ps) := by
  induction ps with
  | nil => intro m v h; simp [loadMany, h]
  | cons p rest ih =>
    intro m v h
    have hload : load m scriptSrc p =
        { map := cmPush m scriptSrc p, startedUnderlying := false } := by
      simp [load, h]
    have hlook : cmLookup (cmPush m scriptSrc p) scriptSrc = some (v ++ [p]) := by
      rw [cmLookup_cmPush, h]; rfl
    obtain ⟨h1, h2⟩ := ih (cmPush m scriptSrc p) (v ++ [p]) hlook
    constructor
    · simp [loadMany, hload, h1]
    · simp [loadMany, hload]
      simpa using h2

/-- C1: for every locator and every nonempty batch of `load` calls issued
on the deduplicating loader before the first underlying completion,
exactly one underlying load is started, and on successful completion
`triggerCallback` hands back exactly the registered callback pairs, in
registration order — so each queued success callback is invoked exactly
once, in the order the calls were registered. -/
theorem dedup_single_underlying_load (m : CallbackMap) (scriptSrc : List Char)
    (ps : List ScriptCallbacks) (hnone : cmLookup m scriptSrc = none) (hne : ps ≠ []) :
    (loadMany m scriptSrc ps).2 = 1 ∧
    (triggerCallback (loadMany m scriptSrc ps).1 scriptSrc).2 = ps := by
  obtain ⟨p, rest, rfl⟩ : ∃ p rest, ps = p :: rest := by
    cases ps with
    | nil => exact absurd rfl hne
    | cons p rest => exact ⟨p, rest, rfl⟩
  have hload : load m scriptSrc p =
      { map := cmInsert m scriptSrc [p], startedUnderlying := true } := by
    simp [load, hnone]
  have hlook : cmLookup (cmInsert m scriptSrc [p]) scriptSrc = some [p] :=
    cmLookup_cmInsert m scriptSrc [p] hnone
  obtain ⟨h1, h2⟩ := loadMany_pending scriptSrc rest (cmInsert m scriptSrc [p]) [p] hlook
  constructor
  · simp [loadMany, hload, h1]
  · simp [loadMany, hload, triggerCallback]
    simpa using congrArg (fun o => o.getD []) h2

/-- C1 witness: two concurrent loads of the same locator on an empty map
start one underlying load and fan out to both callbacks in order. -/
theorem dedup_single_underlying_load_witness :
    cmLookup [] ('a' :: []) = none ∧
    (⟨0, 1⟩ :: ⟨2, 3⟩ :: [] : List ScriptCallbacks) ≠ [] ∧
    ((loadMany [] ('a' :: []) (⟨0, 1⟩ :: ⟨2, 3⟩ :: [])).2 = 1 ∧
      (triggerCallback (loadMany [] ('a' :: []) (⟨0, 1⟩ :: ⟨2, 3⟩ :: [])).1
        ('a' :: [])).2 = ⟨0, 1⟩ :: ⟨2, 3⟩ :: []) :=
  ⟨rfl, by decide,
    dedup_single_underlying_load [] ('a' :: []) (⟨0, 1⟩ :: ⟨2, 3⟩ :: []) rfl (by decide)⟩

/-- C2: completion of an underlying load — success (`triggerCallback`) or
failure (`triggerErrorback`) — removes the pending entry for the locator,
so a subsequent `load` of the same locator delegates a fresh underlying
load.  Neither completion handler delegates back to the wrapped loader,
i.e. the decorator performs no retry: in this embedding the trigger
functions only delete the entry and return the callbacks to invoke. -/
theorem completion_clears_pending (m : CallbackMap) (scriptSrc : List Char)
    (p : ScriptCallbacks) :
    cmLookup (triggerCallback m scriptSrc).1 scriptSrc = none ∧
    cmLookup (triggerErrorback m scriptSrc).1 scriptSrc = none ∧
    (load (triggerCallback m scriptSrc).1 scriptSrc p).startedUnderlying = true ∧
    (load (triggerErrorback m scriptSrc).1 scriptSrc p).startedUnderlying = true := by
  refine ⟨cmLookup_cmDelete m scriptSrc, cmLookup_cmDelete m scriptSrc, ?_, ?_⟩ <;>
    simp [load, triggerCallback, triggerErrorback, cmLookup_cmDelete]

/-- C10: `triggerCallback` deletes the pending entry before any queued
callback runs: the map in force while the callbacks are invoked has no
entry for the locator, so a reentrant `load` of the same locator issued
from inside one of those callbacks creates a fresh singleton entry and
starts a new underlying load instead of joining the batch being
notified. -/
theorem reentrant_load_starts_fresh (m : CallbackMap) (scriptSrc : List Char)
    (ps : List ScriptCallbacks) (h : cmLookup m scriptSrc = some ps)
    (p : ScriptCallbacks) :
    (triggerCallback m scriptSrc).2 = ps ∧
    cmLookup (triggerCallback m scriptSrc).1 scriptSrc = none ∧
    (load (triggerCallback m scriptSrc).1 scriptSrc p).startedUnderlying = true ∧
    cmLookup (load (triggerCallback m scriptSrc).1 scriptSrc p).map scriptSrc
      = some [p] := by
  have hdel := cmLookup_cmDelete m scriptSrc
  refine ⟨by simp [triggerCallback, h], hdel, ?_, ?_⟩
  · simp [load, triggerCallback, hdel]
  · simp [load, triggerCallback, hdel]
    exact cmLookup_cmInsert _ _ _ hdel

/-- C10 witness: with one pending pair for locator `"a"`, the batch handed
to the callbacks is that pair, the entry is gone while they run, and a
reentrant load starts a new underlying load with a fresh singleton
entry. -/
theorem reentrant_load_starts_fresh_witness :
    cmLookup [('a' :: [], ⟨0, 1⟩ :: [])] ('a' :: []) = some (⟨0, 1⟩ :: []) ∧
    ((triggerCallback [('a' :: [], ⟨0, 1⟩ :: [])] ('a' :: [])).2 = ⟨0, 1⟩ :: [] ∧
      cmLookup (triggerCallback [('a' :: [], ⟨0, 1⟩ :: [])] ('a' :: [])).1
        ('a' :: []) = none ∧
      (load (triggerCallback [('a' :: [], ⟨0, 1⟩ :: [])] ('a' :: [])).1
        ('a' :: []) ⟨2, 3⟩).startedUnderlying = true ∧
      cmLookup (load (triggerCallback [('a' :: [], ⟨0, 1⟩ :: [])] ('a' :: [])).1
        ('a' :: []) ⟨2, 3⟩).map ('a' :: []) = some (⟨2, 3⟩ :: [])) :=
  ⟨rfl, reentrant_load_starts_fresh [('a' :: [], ⟨0, 1⟩ :: [])] ('a' :: [])
    (⟨0, 1⟩ :: []) rfl ⟨2, 3⟩⟩

/-- C3 counterexample: when the success callback itself throws, the
`try` block of `WorkerScriptLoader.load` catches that error and also
invokes the failure callback — two invocations, refuting "exactly one of
the two callbacks exactly once, never both". -/
theorem worker_both_callbacks_counterexample :
    workerLoad (Except.ok ()) (Except.error (7 : Nat))
      = [CbEvent.success, CbEvent.failure 7] ∧
    (workerLoad (Except.ok ()) (Except.error (7 : Nat))).length ≠ 1 := by
  exact ⟨rfl, by decide⟩

/-- C3 amended: provided the success callback does not throw,
`WorkerScriptLoader.load` invokes exactly one of the two callbacks
exactly once — the failure callback exactly when the synchronous import
throws, otherwise the success callback — and the invocation list is what
`load` has performed before returning control. -/
theorem worker_exactly_one_callback {E : Type} (importRes : Except E Unit) :
    (workerLoad importRes (Except.ok ())).length = 1 ∧
    (∀ e, importRes = Except.error e →
      workerLoad importRes (Except.ok ()) = [CbEvent.failure e]) ∧
    (importRes = Except.ok () →
      workerLoad importRes (Except.ok ()) = [CbEvent.success]) := by
  cases importRes with
  | ok u =>
    refine ⟨rfl, ?_, fun _ => rfl⟩
    intro e h
    exact absurd h (by simp)
  | error e =>
    refine ⟨rfl, fun e' h => ?_, fun h => nomatch h⟩
    cases h
    rfl

/-- C3 witness: a throwing import invokes exactly the failure callback. -/
theorem worker_exactly_one_callback_witness :
    (workerLoad (Except.error (5 : Nat)) (Except.ok ())).length = 1 ∧
    workerLoad (Except.error (5 : Nat)) (Except.ok ()) = [CbEvent.failure 5] :=
  ⟨(worker_exactly_one_callback (Except.error 5)).1,
    (worker_exactly_one_callback (Except.error 5)).2.1 5 rfl⟩

/-- C8: on the `node|` form, a throwing resolution invokes only the
failure callback with the underlying error and registers no module
definition; a successful resolution registers an anonymous
dependency-free module definition whose factory returns the imported
value before the success callback fires. -/
theorem native_module_branch {E V : Type} (nodeRequire : List Char → Except E V)
    (scriptSrc : List Char) :
    (∀ e, nodeRequire ((scriptSrc.splitOn '|').getD 1 []) = Except.error e →
      nodeLoadNative nodeRequire scriptSrc = [NativeEvent.failure e]) ∧
    (∀ v, nodeRequire ((scriptSrc.splitOn '|').getD 1 []) = Except.ok v →
      nodeLoadNative nodeRequire scriptSrc
        = [NativeEvent.defineAnonymousModule [] v, NativeEvent.success]) := by
  constructor
  · intro e h
    simp only [nodeLoadNative]
    rw [h]
  · intro v h
    simp only [nodeLoadNative]
    rw [h]

/-- C8 witness: a `nodeRequire` that throws on every name, applied to the
locator `"node|x"`, yields only the failure invocation; one that resolves
every name registers the definition and then succeeds. -/
theorem native_module_branch_witness :
    nodeLoadNative (V := Unit) (fun _ => Except.error (3 : Nat)) ("node|x".toList)
      = [NativeEvent.failure 3] ∧
    nodeLoadNative (E := Unit) (fun _ => Except.ok (9 : Nat)) ("node|x".toList)
      = [NativeEvent.defineAnonymousModule [] 9, NativeEvent.success] :=
  ⟨(native_module_branch (fun _ => Except.error 3) ("node|x".toList)).1 3 rfl,
    (native_module_branch (fun _ => Except.ok 9) ("node|x".toList)).2 9 rfl⟩

/-- C7 counterexample: one leading BOM is stripped, not all.  A source of
two BOM characters wraps to a different result than that source with its
leading BOM removed, refuting "wrapping a source text that begins with
the BOM yields output identical to wrapping the same text without the
BOM" in general. -/
theorem wrap_bom_counterexample :
    wrapScriptSource (bomChar :: bomChar :: [])
      ≠ wrapScriptSource (bomChar :: []) := by
  decide

/-- C7 amended: provided the text remaining after the BOM does not itself
begin with a BOM, wrapping the BOM-prefixed text and wrapping the bare
text agree, and both equal the wrapper opening text, then the source
without BOM, then the closing text. -/
theorem wrap_bom_stripped (s : List Char) (h : startsWithBom s = false) :
    wrapScriptSource (bomChar :: s) = wrapScriptSource s ∧
    wrapScriptSource s = wrapPre ++ s ++ wrapSuf := by
  have hb : bomChar.toNat = 0xFEFF := by decide
  cases s with
  | nil => exact ⟨by simp [wrapScriptSource, hb], by simp [wrapScriptSource]⟩
  | cons c rest =>
    have hc : ¬ c.toNat = 0xFEFF := by
      simpa [startsWithBom] using h
    exact ⟨by simp [wrapScriptSource, hb, hc], by simp [wrapScriptSource, hc]⟩

/-- C7 witness: wrapping `"console.log(1)"` with and without a BOM
prefix. -/
theorem wrap_bom_stripped_witness :
    startsWithBom ("console.log(1)".toList) = false ∧
    (wrapScriptSource (bomChar :: "console.log(1)".toList)
        = wrapScriptSource ("console.log(1)".toList) ∧
      wrapScriptSource ("console.log(1)".toList)
        = wrapPre ++ "console.log(1)".toList ++ wrapSuf) :=
  ⟨by decide, wrap_bom_stripped ("console.log(1)".toList) (by decide)⟩

/-- C4: in the cached path, the trace starts with script evaluation and
then the caller's success callback, so the success callback runs before
any cache write-back or eviction (those only occur in the remainder of
the trace); the caller's failure callback never fires, and a failing
asynchronous unlink or write is reported to the `onNodeCachedDataError`
hook. -/
theorem node_cached_success_before_cache_io {E : Type} (rejected produced : Bool)
    (p : List Char) (ue we : Option E) :
    ∃ rest, nodeCachedAfterLoad rejected produced p ue we
        = NEvent.evalScript :: NEvent.callerSuccess :: rest ∧
      (∀ e, NEvent.callerFailure e ∉ nodeCachedAfterLoad rejected produced p ue we) ∧
      (∀ q, NEvent.fsUnlink q ∈ nodeCachedAfterLoad rejected produced p ue we →
        NEvent.fsUnlink q ∈ rest) ∧
      (∀ q, NEvent.fsWrite q ∈ nodeCachedAfterLoad rejected produced p ue we →
        NEvent.fsWrite q ∈ rest) ∧
      (rejected = true → ue ≠ none →
        NEvent.hookError "unlink".toList p ∈ rest) ∧
      (rejected = false → produced = true → we ≠ none →
        NEvent.hookError "writeFile".toList p ∈ rest) := by
  refine ⟨_, rfl, ?_, ?_, ?_, ?_, ?_⟩ <;>
    cases rejected <;> cases produced <;> cases ue <;> cases we <;>
      simp [nodeCachedAfterLoad]

/-- C4 witness: rejected cache data with a failing unlink. -/
theorem node_cached_success_before_cache_io_witness :
    ∃ rest, nodeCachedAfterLoad true false ('p' :: []) (some (1 : Nat)) none
        = NEvent.evalScript :: NEvent.callerSuccess :: rest ∧
      (∀ e, NEvent.callerFailure e
        ∉ nodeCachedAfterLoad true false ('p' :: []) (some (1 : Nat)) none) ∧
      (∀ q, NEvent.fsUnlink q ∈ nodeCachedAfterLoad true false ('p' :: []) (some (1 : Nat)) none →
        NEvent.fsUnlink q ∈ rest) ∧
      (∀ q, NEvent.fsWrite q ∈ nodeCachedAfterLoad true false ('p' :: []) (some (1 : Nat)) none →
        NEvent.fsWrite q ∈ rest) ∧
      (true = true → (some (1 : Nat)) ≠ none →
        NEvent.hookError "unlink".toList ('p' :: []) ∈ rest) ∧
      (true = false → false = true → (none : Option Nat) ≠ none →
        NEvent.hookError "writeFile".toList ('p' :: []) ∈ rest) :=
  node_cached_success_before_cache_io true false ('p' :: []) (some 1) none

/-- C5: exactly one post-execution cache action, chosen by the compiled
script's flags: `cachedDataRejected` set — the hook gets
`cachedDataRejected` with the cache path and exactly one unlink (and no
write) occurs; otherwise `cachedDataProduced` set — exactly one write
(and no unlink); neither — no cache file is written or deleted. -/
theorem node_cached_one_action {E : Type} (rejected produced : Bool) (p : List Char)
    (ue we : Option E) :
    (rejected = true →
      NEvent.hookError "cachedDataRejected".toList p
          ∈ nodeCachedAfterLoad rejected produced p ue we ∧
        countUnlink (nodeCachedAfterLoad rejected produced p ue we) = 1 ∧
        countWrite (nodeCachedAfterLoad rejected produced p ue we) = 0) ∧
    (rejected = false → produced = true →
      countWrite (nodeCachedAfterLoad rejected produced p ue we) = 1 ∧
        countUnlink (nodeCachedAfterLoad rejected produced p ue we) = 0) ∧
    (rejected = false → produced = false →
      countUnlink (nodeCachedAfterLoad rejected produced p ue we) = 0 ∧
        countWrite (nodeCachedAfterLoad rejected produced p ue we) = 0) := by
  cases rejected <;> cases produced <;> cases ue <;> cases we <;>
    simp [nodeCachedAfterLoad, countUnlink, countWrite]

/-- C5 witness: with both flags clear, no cache file is written or
deleted. -/
theorem node_cached_one_action_witness :
    countUnlink (nodeCachedAfterLoad false false ('p' :: []) (none : Option Nat) none) = 0 ∧
    countWrite (nodeCachedAfterLoad false false ('p' :: []) (none : Option Nat) none) = 0 :=
  (node_cached_one_action false false ('p' :: []) none none).2.2 rfl rfl

/-- C6 counterexample: with minimum delay `1` and random draw `1/2`
(admissible, since `Math.random()` ranges over `[0, 1)`), the scheduled
timeout is `1 + ceil(1/2) = 2 = 2 × 1`, which is not strictly less than
twice the minimum delay — refuting the half-open interval `[d, 2d)`.
Moreover the delay is an unconstrained JS number: at the fractional
delay `3/2` with draw `9/10` the timeout is `3/2 + ceil(27/20) = 7/2`,
which even exceeds `2 × 3/2 = 3`, so no bound of the form `[d, 2d]`
survives either. -/
theorem runSoon_interval_counterexample :
    ((0 : ℚ) ≤ 1 / 2 ∧ (1 / 2 : ℚ) < 1 ∧ (0 : ℚ) < 1 ∧
      runSoonTimeout 1 (1 / 2) = 2 ∧ ¬ runSoonTimeout 1 (1 / 2) < 2 * 1) ∧
    ((0 : ℚ) ≤ 9 / 10 ∧ (9 / 10 : ℚ) < 1 ∧ (0 : ℚ) < 3 / 2 ∧
      runSoonTimeout (3 / 2) (9 / 10) = 7 / 2 ∧
      ¬ runSoonTimeout (3 / 2) (9 / 10) < 2 * (3 / 2) ∧
      ¬ runSoonTimeout (3 / 2) (9 / 10) ≤ 2 * (3 / 2)) := by
  have hc1 : ⌈(1 / 2 : ℚ) * (1 : ℚ)⌉ = (1 : ℤ) := by
    rw [Int.ceil_eq_iff]
    norm_num
  have hc2 : ⌈(9 / 10 : ℚ) * (3 / 2 : ℚ)⌉ = (2 : ℤ) := by
    rw [Int.ceil_eq_iff]
    norm_num
  have h1 : runSoonTimeout 1 (1 / 2) = 2 := by
    unfold runSoonTimeout
    rw [hc1]
    norm_num
  have h2 : runSoonTimeout (3 / 2) (9 / 10) = 7 / 2 := by
    unfold runSoonTimeout
    rw [hc2]
    norm_num
  refine ⟨⟨by norm_num, by norm_num, by norm_num, h1, by rw [h1]; norm_num⟩,
    by norm_num, by norm_num, by norm_num, h2, by rw [h2]; norm_num,
    by rw [h2]; norm_num⟩

/-- C6 amended: for every positive minimum delay `d` (an arbitrary
positive number, as the configured `nodeCachedDataWriteDelay` is) and
every random draw in `[0, 1)`, the scheduled timeout lies in the closed
interval `[d, d + ⌈d⌉]`, and hence is strictly below `2d + 1`; when `d`
is an integer this interval is `[d, 2d]`, whose upper endpoint is
attainable because `Math.ceil` can round the jitter up to `d` itself,
and for fractional `d` the timeout can exceed `2d`. -/
theorem runSoon_timeout_bounds (d : ℚ) (hd : 0 < d) (q : ℚ) (h0 : 0 ≤ q)
    (h1 : q < 1) :
    d ≤ runSoonTimeout d q ∧ runSoonTimeout d q ≤ d + (⌈d⌉ : ℤ) ∧
      runSoonTimeout d q < 2 * d + 1 := by
  have hceil : (0 : ℤ) ≤ ⌈q * d⌉ := Int.ceil_nonneg (mul_nonneg h0 hd.le)
  have hceil' : (0 : ℚ) ≤ (⌈q * d⌉ : ℤ) := by exact_mod_cast hceil
  have hmono : ⌈q * d⌉ ≤ ⌈d⌉ := Int.ceil_le_ceil (by nlinarith)
  have hmono' : ((⌈q * d⌉ : ℤ) : ℚ) ≤ ((⌈d⌉ : ℤ) : ℚ) := by exact_mod_cast hmono
  have hlt : ((⌈d⌉ : ℤ) : ℚ) < d + 1 := Int.ceil_lt_add_one d
  refine ⟨?_, ?_, ?_⟩
  · unfold runSoonTimeout
    linarith
  · unfold runSoonTimeout
    linarith
  · unfold runSoonTimeout
    linarith

/-- C6 amended witness: the fractional delay `3/2` with draw `9/10`
stays within `[3/2, 3/2 + ⌈3/2⌉]` and below `2 × 3/2 + 1 = 4`. -/
theorem runSoon_timeout_bounds_witness :
    (0 : ℚ) < 3 / 2 ∧ (0 : ℚ) ≤ 9 / 10 ∧ (9 / 10 : ℚ) < 1 ∧
    ((3 / 2 : ℚ) ≤ runSoonTimeout (3 / 2) (9 / 10) ∧
      runSoonTimeout (3 / 2) (9 / 10) ≤ 3 / 2 + (⌈(3 / 2 : ℚ)⌉ : ℤ) ∧
      runSoonTimeout (3 / 2) (9 / 10) < 2 * (3 / 2) + 1) :=
  ⟨by norm_num, by norm_num, by norm_num,
    runSoon_timeout_bounds (3 / 2) (by norm_num) (9 / 10) (by norm_num) (by norm_num)⟩

theorem take_append_of_isSuffixOf (suf l : List Char)
    (h : suf.isSuffixOf l = true) :
    l.take (l.length - suf.length) ++ suf = l := by
  have h' : suf <:+ l := List.isSuffixOf_iff_suffix.mp h
  obtain ⟨t, rfl⟩ := h'
  rw [List.length_append, Nat.add_sub_cancel, List.take_left]

/-- C9: the computed cache file path is `join(D, h ++ "-" ++ b ++ ".code")`
where `h` is the hex digest of the hash of the file path and `b` is its
base name with a trailing `.js` removed (and unchanged when there is no
trailing `.js`). -/
theorem cachedDataPath_shape (hashHex basenameOf : List Char → List Char)
    (joinPath : List Char → List Char → List Char) (baseDir filename : List Char) :
    getCachedDataPath hashHex basenameOf joinPath baseDir filename
      = joinPath baseDir
          (hashHex filename ++ '-' :: replaceJsSuffix (basenameOf filename)
            ++ ".code".toList) ∧
    (('.' :: 'j' :: 's' :: []).isSuffixOf (basenameOf filename) = true →
      replaceJsSuffix (basenameOf filename) ++ '.' :: 'j' :: 's' :: []
        = basenameOf filename) ∧
    (('.' :: 'j' :: 's' :: []).isSuffixOf (basenameOf filename) = false →
      replaceJsSuffix (basenameOf filename) = basenameOf filename) := by
  refine ⟨rfl, ?_, ?_⟩
  · intro h
    rw [replaceJsSuffix, if_pos h]
    exact take_append_of_isSuffixOf _ _ h
  · intro h
    rw [replaceJsSuffix, if_neg (by simp [h])]

/-- C9 witness: a concrete hash, basename and join, with basename
`"foo.js"`: the `.js` suffix is stripped in the assembled name. -/
theorem cachedDataPath_shape_witness :
    getCachedDataPath (fun _ => 'a' :: 'b' :: []) (fun _ => "foo.js".toList)
        (fun a b => a ++ '/' :: b) ('d' :: []) ('f' :: [])
      = (fun (a b : List Char) => a ++ '/' :: b) ('d' :: [])
          (('a' :: 'b' :: []) ++ '-' :: replaceJsSuffix ("foo.js".toList)
            ++ ".code".toList) ∧
    replaceJsSuffix ("foo.js".toList) ++ '.' :: 'j' :: 's' :: [] = "foo.js".toList :=
  ⟨(cachedDataPath_shape (fun _ => 'a' :: 'b' :: []) (fun _ => "foo.js".toList)
      (fun a b => a ++ '/' :: b) ('d' :: []) ('f' :: [])).1,
    (cachedDataPath_shape (fun _ => 'a' :: 'b' :: []) (fun _ => "foo.js".toList)
      (fun a b => a ++ '/' :: b) ('d' :: []) ('f' :: [])).2.1 (by decide)⟩

end ScriptLoader
